import Mathlib

/-!
# A Lean model of `server/main.go`

The program is a small HTTP gateway written against Go's `net/http`:

* `graphqlProxyHandler` checks for a bearer credential and hands the request to
  a single-host reverse proxy;
* `authHandler` is an empty stub;
* `corsMiddleware` wraps a handler, setting three CORS headers and answering
  `OPTIONS` requests itself;
* `Server` / `NewServer` / `Server.Handle` / `Server.Start` hold the route list
  and build the dispatch table.

A Go handler `func(w http.ResponseWriter, r *http.Request)` works by side
effect on the response writer and on the request it points to.  It is modelled
here as a function on an explicit state, `Exchange`, holding the response
writer, the request, and the log of requests handed to the reverse proxy.

The parts of the Go standard library the program calls (`http.Header`,
`strings.HasPrefix`, `http.Error`, `ResponseWriter.WriteHeader`, `url.Parse`,
`httputil.NewSingleHostReverseProxy`, `http.StripPrefix`, `ServeMux.Handle`)
are modelled from their documented behaviour.  What the library does that
depends on the outside world or on the library version (the round trip to the
upstream, the file server, the path escaping of `net/url`, the pattern rules of
the multiplexer) is a field of the structure `Lib`, so every theorem holds for
all of them.

Go strings are byte strings; they are modelled by Lean strings, and the
prefix tests of the program, whose prefixes are ASCII, are made character by
character.
-/

set_option autoImplicit false

namespace GraphqlGateway

/-! ## Strings -/

/-- Go `strings.HasPrefix(s, prefix)`. -/
def HasPrefix (s pre : String) : Bool := pre.data.isPrefixOf s.data

/-- Go `strings.HasSuffix(s, suffix)`. -/
def HasSuffix (s suf : String) : Bool := suf.data.reverse.isPrefixOf s.data.reverse

/-- Go `strings.TrimPrefix(s, prefix)`: `s` without the leading `prefix`, or `s`
itself when it does not start with `prefix`. -/
def TrimPrefix (s pre : String) : String :=
  if HasPrefix s pre then String.mk (s.data.drop pre.data.length) else s

/-! ## `http.Header` -/

/-- Go `validHeaderFieldByte` (net/textproto): the token characters of RFC 7230. -/
def validHeaderFieldByte (c : Char) : Bool :=
  c.isAlphanum ||
    [33, 35, 36, 37, 38, 39, 42, 43, 45, 46, 94, 95, 96, 124, 126].contains c.toNat

/-- The capitalising loop of Go `canonicalMIMEHeaderKey`: the first letter and
every letter after a hyphen in upper case, the other letters in lower case. -/
def canonicalLoop : Bool → List Char → List Char
  | _, [] => []
  | upper, c :: cs =>
    let c := if upper && c.isLower then c.toUpper
      else if !upper && c.isUpper then c.toLower else c
    c :: canonicalLoop (c == '-') cs

/-- Go `textproto.CanonicalMIMEHeaderKey`: a key holding a byte that is not a
token character is returned unchanged; any other key is capitalised. -/
def CanonicalMIMEHeaderKey (s : String) : String :=
  if s.data.all validHeaderFieldByte then String.mk (canonicalLoop true s.data) else s

/-- Go `http.Header`, a `map[string][]string`, as an association list. -/
abbrev Header := List (String × List String)

namespace Header

/-- Go `Header.Values(key)`: all the values stored under the canonical key. -/
def Values (h : Header) (key : String) : List String :=
  (h.lookup (CanonicalMIMEHeaderKey key)).getD []

/-- Go `Header.Get(key)`: the first value stored under the canonical key, or
the empty string. -/
def Get (h : Header) (key : String) : String :=
  match h.Values key with
  | [] => ""
  | v :: _ => v

/-- Go `Header.Del(key)`. -/
def Del (h : Header) (key : String) : Header :=
  h.filter (fun e => e.1 != CanonicalMIMEHeaderKey key)

/-- Go `Header.Set(key, value)`: the canonical key now holds the single value. -/
def Set (h : Header) (key value : String) : Header :=
  (CanonicalMIMEHeaderKey key, [value]) :: h.Del key

/-- Go `Header.Add(key, value)`: the value is appended to the values the
canonical key holds. -/
def Add (h : Header) (key value : String) : Header :=
  (CanonicalMIMEHeaderKey key, h.Values key ++ [value]) :: h.Del key

end Header

/-! ## Requests and responses -/

/-- Go `url.URL` (the fields the program and the reverse proxy touch). -/
structure URL where
  Scheme : String := ""
  Opaque : String := ""
  Host : String := ""
  Path : String := ""
  RawPath : String := ""
  RawQuery : String := ""
  Fragment : String := ""
  deriving DecidableEq

/-- Go `http.Request` (the fields the program and the reverse proxy touch). -/
structure Request where
  Method : String := "GET"
  URL : URL := {}
  Header : Header := []
  Body : String := ""
  Host : String := ""
  deriving DecidableEq

/-- The server side of a Go `http.ResponseWriter`: the live header map
`w.Header()`, whether the status line has been written, and, once it has, the
status and the snapshot of the header map that went out with it. -/
structure ResponseWriter where
  header : Header := []
  wroteHeader : Bool := false
  status : Nat := 0
  sentHeader : Header := []
  body : String := ""
  deriving DecidableEq

/-- What the client receives. -/
structure Response where
  status : Nat
  header : Header
  body : String
  deriving DecidableEq

def StatusOK : Nat := 200
def StatusUnauthorized : Nat := 401
def StatusNotFound : Nat := 404

/-- Go `ResponseWriter.WriteHeader(code)`: the first call with a final status
fixes the status and the headers; a later call is ignored (the library only
logs it), and an informational 1xx status other than 101 fixes nothing. -/
def ResponseWriter.WriteHeader (w : ResponseWriter) (code : Nat) : ResponseWriter :=
  if w.wroteHeader then w
  else if 100 ≤ code ∧ code ≤ 199 ∧ code ≠ 101 then w
  else { w with wroteHeader := true, status := code, sentHeader := w.header }

/-- The end of a request in Go's server (`finishRequest`): a handler that
returned without writing a status gets `200 OK` with the header map as it is. -/
def ResponseWriter.finish (w : ResponseWriter) : Response :=
  let w := if w.wroteHeader then w else w.WriteHeader StatusOK
  { status := w.status, header := w.sentHeader, body := w.body }

/-- Go `bodyAllowedForStatus`. -/
def bodyAllowedForStatus (status : Nat) : Bool :=
  if 100 ≤ status ∧ status ≤ 199 then false
  else if status = 204 then false
  else if status = 304 then false
  else true

/-- The state a handler call `h(w, r)` works on: the response writer `w`, the
request `*r` (a handler may assign to its fields), the requests that were
handed to `ReverseProxy.ServeHTTP`, and the requests the reverse proxy sent to
the upstream, both in order. -/
structure Exchange where
  w : ResponseWriter := {}
  r : Request
  proxied : List Request := []
  outbound : List Request := []
  deriving DecidableEq

/-- The state in which the server calls the handler of a route: nothing
written, an empty header map, no proxy call made. -/
def Exchange.start (r : Request) : Exchange := { r := r }

/-- Go `http.HandlerFunc`. -/
abbrev HandlerFunc := Exchange → Exchange

/-- The response the client receives for request `r` from handler `h`. -/
def serve (h : HandlerFunc) (r : Request) : Response := (h (Exchange.start r)).w.finish

/-- Go `w.Header().Set(key, value)`. -/
def Exchange.HeaderSet (x : Exchange) (key value : String) : Exchange :=
  { x with w := { x.w with header := x.w.header.Set key value } }

/-- Go `w.Header().Del(key)`. -/
def Exchange.HeaderDel (x : Exchange) (key : String) : Exchange :=
  { x with w := { x.w with header := x.w.header.Del key } }

/-- Go `w.WriteHeader(code)`. -/
def Exchange.WriteHeader (x : Exchange) (code : Nat) : Exchange :=
  { x with w := x.w.WriteHeader code }

/-- Go `w.Write(data)` on the server's response writer: an implicit
`WriteHeader(200)` if nothing was written yet; the data is dropped when the
status allows no body or the request method is `HEAD`. -/
def Exchange.Write (x : Exchange) (data : String) : Exchange :=
  let x := if x.w.wroteHeader then x else x.WriteHeader StatusOK
  if data = "" then x
  else if !bodyAllowedForStatus x.w.status then x
  else if x.r.Method = "HEAD" then x
  else { x with w := { x.w with body := x.w.body ++ data } }

/-- Go `http.Error(w, error, code)`. -/
def Error (x : Exchange) (error : String) (code : Nat) : Exchange :=
  let x := x.HeaderDel "Content-Length"
  let x := x.HeaderSet "Content-Type" "text/plain; charset=utf-8"
  let x := x.HeaderSet "X-Content-Type-Options" "nosniff"
  let x := x.WriteHeader code
  x.Write (error ++ "\n")

/-- Go `http.NotFound(w, r)`. -/
def NotFound (x : Exchange) : Exchange := Error x "404 page not found" StatusNotFound

/-! ## `url.Parse` -/

/-- The loop of Go `getScheme` (net/url) at index `i`, with the characters read
so far in `acc`: letters go on; a digit, `+`, `-` or `.` goes on unless it is
the first character; a colon ends the scheme, and is an error (`none`) as the
first character; any other character means there is no scheme. -/
def getSchemeLoop (rawURL : List Char) : Nat → List Char → List Char →
    Option (List Char × List Char)
  | _, _, [] => some ([], rawURL)
  | i, acc, c :: cs =>
    if c.isAlpha then getSchemeLoop rawURL (i + 1) (acc ++ [c]) cs
    else if c.isDigit || c == '+' || c == '-' || c == '.' then
      if i = 0 then some ([], rawURL) else getSchemeLoop rawURL (i + 1) (acc ++ [c]) cs
    else if c == ':' then
      if i = 0 then none else some (acc, cs)
    else some ([], rawURL)

/-- Go `getScheme` (net/url): splits `scheme:rest`; a string that does not
start with a scheme is returned whole with an empty scheme.  `none` stands for
the error "missing protocol scheme". -/
def getScheme (rawURL : List Char) : Option (List Char × List Char) :=
  getSchemeLoop rawURL 0 [] rawURL

/-- The characters `net/url` leaves unescaped in a path, so that the path is
its own escaped form and `RawPath` stays empty. -/
def plainPathChar (c : Char) : Bool :=
  c.isAlphanum || c == '/' || c == '-' || c == '.' || c == '_' || c == '~'

/-- The characters of a plain host name (no user info, port or IPv6 literal). -/
def plainHostChar (c : Char) : Bool :=
  c.isAlphanum || c == '-' || c == '.'

/-- Go `url.Parse(rawURL)` on URLs of the form `scheme://host/path?query#fragment`
with a plain host and a path that needs no escaping, the form of the endpoint
literal of the program.  `none` stands for a parse error and for the forms this
model does not cover. -/
def Parse (rawURL : String) : Option URL :=
  let (u, frag) := rawURL.data.span (· != '#')
  match getScheme u with
  | none => none
  | some (scheme, rest) =>
    let (rest, query) := rest.span (· != '?')
    if scheme.isEmpty || !(['/', '/'].isPrefixOf rest) then none
    else
      let (authority, path) := (rest.drop 2).span (· != '/')
      if !authority.all plainHostChar || !path.all plainPathChar then none
      else some
        { Scheme := String.mk (scheme.map Char.toLower)
          Host := String.mk authority
          Path := String.mk path
          RawQuery := String.mk (query.drop 1)
          Fragment := String.mk (frag.drop 1) }

/-! ## The standard library as a parameter -/

/-- The behaviour of the standard library that the program relies on and that
is fixed by the outside world or by the library version. -/
structure Lib where
  /-- Go `URL.EscapedPath()`. -/
  EscapedPath : URL → String
  /-- What `ReverseProxy.ServeHTTP` does with the outbound request once the
  director has run: the round trip to the upstream and the copy of the
  upstream's answer (or of a gateway error) to the response writer. -/
  roundTrip : Request → ResponseWriter → ResponseWriter
  /-- Go `http.FileServer(http.Dir(dir))`. -/
  FileServer : String → HandlerFunc
  /-- Whether `ServeMux` accepts the syntax of a pattern. -/
  validPattern : String → Bool
  /-- Whether `ServeMux` refuses to hold two patterns together. -/
  conflicts : String → String → Bool

/-! ## `httputil.NewSingleHostReverseProxy` -/

/-- Go `singleJoiningSlash` (net/http/httputil). -/
def singleJoiningSlash (a b : String) : String :=
  let aslash := HasSuffix a "/"
  let bslash := HasPrefix b "/"
  if aslash && bslash then a ++ String.mk (b.data.drop 1)
  else if !aslash && !bslash then a ++ "/" ++ b
  else a ++ b

/-- Go `joinURLPath` (net/http/httputil): the joined `Path` and `RawPath`. -/
def joinURLPath (L : Lib) (a b : URL) : String × String :=
  if a.RawPath = "" ∧ b.RawPath = "" then (singleJoiningSlash a.Path b.Path, "")
  else
    let apath := L.EscapedPath a
    let bpath := L.EscapedPath b
    let aslash := HasSuffix apath "/"
    let bslash := HasPrefix bpath "/"
    if aslash && bslash then
      (a.Path ++ String.mk (b.Path.data.drop 1), apath ++ String.mk (bpath.data.drop 1))
    else if !aslash && !bslash then (a.Path ++ "/" ++ b.Path, apath ++ "/" ++ bpath)
    else (a.Path ++ b.Path, apath ++ bpath)

/-- Go `rewriteRequestURL` (net/http/httputil), the director of
`NewSingleHostReverseProxy(target)`: the request is sent to the target's scheme
and host, its path is joined to the target's path, and the two queries are
concatenated. -/
def rewriteRequestURL (L : Lib) (req : Request) (target : URL) : Request :=
  let targetQuery := target.RawQuery
  let p := joinURLPath L target req.URL
  let u := { req.URL with Scheme := target.Scheme, Host := target.Host,
                          Path := p.1, RawPath := p.2 }
  let u := if targetQuery = "" ∨ u.RawQuery = "" then
      { u with RawQuery := targetQuery ++ u.RawQuery }
    else { u with RawQuery := targetQuery ++ "&" ++ u.RawQuery }
  { req with URL := u }

/-- Go `httputil.ReverseProxy`. -/
structure ReverseProxy where
  Director : Request → Request

/-- Go `httputil.NewSingleHostReverseProxy(target)`. -/
def NewSingleHostReverseProxy (L : Lib) (target : URL) : ReverseProxy :=
  { Director := fun req => rewriteRequestURL L req target }

/-- Go `ReverseProxy.ServeHTTP(w, r)`: the director runs on a copy of the
request, the copy is sent upstream and the answer is written to `w`; the
request `r` itself is left as it is. -/
def ReverseProxy.ServeHTTP (L : Lib) (p : ReverseProxy) (x : Exchange) : Exchange :=
  let outreq := p.Director x.r
  { x with w := L.roundTrip outreq x.w
           proxied := x.proxied ++ [x.r]
           outbound := x.outbound ++ [outreq] }

/-! ## The handlers of `main.go` -/

/-- The value `url.Parse("https://DOMAIN/api/graphql-engine/v1/graphql")` gives
`graphqlProxyHandler`, which drops the error. -/
def graphqlEndpoint : URL :=
  (Parse "https://DOMAIN/api/graphql-engine/v1/graphql").getD {}

/-- `graphqlProxyHandler` of `main.go`. -/
def graphqlProxyHandler (L : Lib) : HandlerFunc := fun x =>
  let authHeader := x.r.Header.Get "Authorization"
  if !HasPrefix authHeader "Bearer " then
    Error x "Unauthorized" StatusUnauthorized
  else
    let proxy := NewSingleHostReverseProxy L graphqlEndpoint
    let r := x.r
    let r := { r with URL := { r.URL with Host := graphqlEndpoint.Host } }
    let r := { r with URL := { r.URL with Scheme := graphqlEndpoint.Scheme } }
    let r := { r with Host := graphqlEndpoint.Host }
    proxy.ServeHTTP L { x with r := r }

/-- `authHandler` of `main.go`: an empty body. -/
def authHandler : HandlerFunc := fun x => x

/-- `corsMiddleware` of `main.go`. -/
def corsMiddleware (next : HandlerFunc) : HandlerFunc := fun x =>
  let x := x.HeaderSet "Access-Control-Allow-Origin" "*"
  let x := x.HeaderSet "Access-Control-Allow-Methods" "GET, POST, OPTIONS"
  let x := x.HeaderSet "Access-Control-Allow-Headers" "Content-Type, Authorization"
  if x.r.Method = "OPTIONS" then
    x.WriteHeader StatusOK
  else
    next x

/-! ## `http.StripPrefix` and `http.ServeMux` -/

/-- Go `http.StripPrefix(prefix, h)`: `h` is called on a copy of the request
whose `URL.Path` (and `URL.RawPath`) lost the prefix; a request whose path does
not start with the prefix is answered with 404.  The request of the caller is
left as it is. -/
def StripPrefix (pre : String) (h : HandlerFunc) : HandlerFunc :=
  if pre = "" then h
  else fun x =>
    let p := TrimPrefix x.r.URL.Path pre
    let rp := TrimPrefix x.r.URL.RawPath pre
    if p.length < x.r.URL.Path.length ∧
        (x.r.URL.RawPath = "" ∨ rp.length < x.r.URL.RawPath.length) then
      let r2 := { x.r with URL := { x.r.URL with Path := p, RawPath := rp } }
      { h { x with r := r2 } with r := x.r }
    else NotFound x

/-- Why `ServeMux.Handle` panics. -/
inductive MuxPanic where
  | invalidPattern (pattern : String)
  | multipleRegistrations (pattern : String)
  deriving DecidableEq

/-- An entry of the dispatch table of a Go `http.ServeMux`. -/
structure muxEntry where
  pattern : String
  h : HandlerFunc

/-- Go `http.ServeMux`: the dispatch table, here in registration order. -/
abbrev ServeMux := List muxEntry

/-- Go `http.NewServeMux()`. -/
def NewServeMux : ServeMux := []

/-- Go `ServeMux.Handle(pattern, handler)`: it panics on an empty pattern, on a
pattern the library version at hand does not accept, and on a pattern that is
already registered or that the library version at hand finds in conflict with
a registered one; otherwise the entry is added. -/
def ServeMux.Handle (L : Lib) (mux : ServeMux) (pattern : String) (handler : HandlerFunc) :
    Except MuxPanic ServeMux :=
  if pattern = "" then .error (.invalidPattern pattern)
  else if !L.validPattern pattern then .error (.invalidPattern pattern)
  else if mux.any (fun e => e.pattern == pattern || L.conflicts e.pattern pattern) then
    .error (.multipleRegistrations pattern)
  else .ok (mux ++ [{ pattern := pattern, h := handler }])

/-- Go `ServeMux.HandleFunc(pattern, handler)`. -/
def ServeMux.HandleFunc (L : Lib) (mux : ServeMux) (pattern : String) (handler : HandlerFunc) :
    Except MuxPanic ServeMux :=
  mux.Handle L pattern handler

/-! ## The server of `main.go` -/

/-- Go `time.Duration`, a number of nanoseconds. -/
abbrev Duration := Int

/-- Go `time.Second`. -/
def Second : Duration := 1000000000

/-- `Route` of `main.go`. -/
structure Route where
  Path : String
  Handler : HandlerFunc

/-- `Server` of `main.go`. -/
structure Server where
  port : String
  routes : List Route
  readTimeout : Duration
  writeTimeout : Duration
  idleTimeout : Duration
  readHeaderTimeout : Duration

/-- `NewServer` of `main.go`. -/
def NewServer (port : String)
    (readTimeout writeTimeout idleTimeout readHeaderTimeout : Duration) : Server :=
  { port := port
    routes := []
    readTimeout := readTimeout
    writeTimeout := writeTimeout
    idleTimeout := idleTimeout
    readHeaderTimeout := readHeaderTimeout }

/-- `Server.Handle` of `main.go`. -/
def Server.Handle (s : Server) (path : String) (handler : HandlerFunc) : Server :=
  { s with routes := s.routes ++ [{ Path := path, Handler := handler }] }

/-- The first part of `Server.Start` of `main.go` (lines 95 to 104): the
dispatch table it builds, or the panic of the multiplexer.  The rest of
`Start` (binding the address, serving, the shutdown on a signal) is outside
the model. -/
def Server.Start (L : Lib) (s : Server) : Except MuxPanic ServeMux := do
  let mux ← s.routes.foldlM
    (fun mux route =>
      let handler := corsMiddleware route.Handler
      ServeMux.HandleFunc L mux route.Path handler)
    NewServeMux
  let fs := L.FileServer "static"
  ServeMux.Handle L mux "/static/" (StripPrefix "/static/" fs)

/-- `InitServer` of `main.go`: the server it configures and what `Start` makes
of it. -/
def InitServer (L : Lib) : Server × Except MuxPanic ServeMux :=
  let server := NewServer ":8080" (10 * Second) (10 * Second) (30 * Second) (2 * Second)
  let server := server.Handle "/api/graphql" (graphqlProxyHandler L)
  let server := server.Handle "/api/auth/signin" authHandler
  (server, server.Start L)

/-! ## Predicates of the statements and sample values -/

/-- A library instance for the examples: the upstream cannot be reached (the
reverse proxy answers 502), the `static` directory is empty, paths need no
escaping, and the multiplexer only refuses the empty pattern and a pattern
registered twice. -/
def Lib.sample : Lib where
  EscapedPath := fun u => u.Path
  roundTrip := fun _ w => w.WriteHeader 502
  FileServer := fun _ x => NotFound x
  validPattern := fun _ => true
  conflicts := fun _ _ => false

/-- A library instance whose upstream can be reached and answers 200 with an
`Access-Control-Allow-Origin` header of its own: `ReverseProxy.ServeHTTP`
copies the headers of the upstream into the header map of the response with
`Header.Add` and then writes the status. -/
def Lib.upstreamOrigin : Lib where
  EscapedPath := fun u => u.Path
  roundTrip := fun _ w =>
    ResponseWriter.WriteHeader
      { w with header := w.header.Add "Access-Control-Allow-Origin" "https://up" } 200
  FileServer := fun _ x => NotFound x
  validPattern := fun _ => true
  conflicts := fun _ _ => false

/-- A response (or header map) carries the three CORS headers, each with its
single literal value. -/
def HasCors (h : Header) : Prop :=
  h.Values "Access-Control-Allow-Origin" = ["*"] ∧
  h.Values "Access-Control-Allow-Methods" = ["GET, POST, OPTIONS"] ∧
  h.Values "Access-Control-Allow-Headers" = ["Content-Type, Authorization"]

instance (h : Header) : Decidable (HasCors h) := by
  unfold HasCors; infer_instance

/-- The state `corsMiddleware` reaches before it looks at the method: the three
headers set, nothing else touched. -/
def withCors (x : Exchange) : Exchange :=
  ((x.HeaderSet "Access-Control-Allow-Origin" "*").HeaderSet
      "Access-Control-Allow-Methods" "GET, POST, OPTIONS").HeaderSet
    "Access-Control-Allow-Headers" "Content-Type, Authorization"

/-- The three CORS headers, as the header map of a fresh response holds them
once `corsMiddleware` has set them. -/
def corsHeaderMap : Header :=
  [("Access-Control-Allow-Headers", ["Content-Type, Authorization"]),
   ("Access-Control-Allow-Methods", ["GET, POST, OPTIONS"]),
   ("Access-Control-Allow-Origin", ["*"])]

/-- A handler keeps the CORS headers: run on a response to which no status was
written yet and whose header map carries the three headers, it produces a
response that carries them. -/
def KeepsCors (H : HandlerFunc) : Prop :=
  ∀ x : Exchange, x.w.wroteHeader = false → HasCors x.w.header → HasCors (H x).w.finish.header

/-- A handler that removes a header the middleware set:
`w.Header().Del("Access-Control-Allow-Origin")`. -/
def dropOriginHandler : HandlerFunc := fun x => x.HeaderDel "Access-Control-Allow-Origin"

/-- A `POST /api/auth/signin` request without headers. -/
def signinRequest : Request := { Method := "POST", URL := { Path := "/api/auth/signin" } }

/-- An `OPTIONS /api/graphql` request without headers. -/
def preflightRequest : Request := { Method := "OPTIONS", URL := { Path := "/api/graphql" } }

/-- A server with one route, registered under the path of the static files. -/
def staticClashServer : Server :=
  (NewServer ":8080" (10 * Second) (10 * Second) (30 * Second) (2 * Second)).Handle
    "/static/" authHandler

/-- A server with one route, registered under the empty path. -/
def emptyPathServer : Server :=
  (NewServer ":8080" (10 * Second) (10 * Second) (30 * Second) (2 * Second)).Handle
    "" authHandler

/-- The dispatch table `Server.Start` is to build: one entry per registered
route, the handler wrapped in `corsMiddleware`, in registration order, then the
entry of the static files, not wrapped. -/
def dispatchTable (L : Lib) (s : Server) : ServeMux :=
  s.routes.map (fun route => { pattern := route.Path, h := corsMiddleware route.Handler }) ++
    [{ pattern := "/static/", h := StripPrefix "/static/" (L.FileServer "static") }]

/-- A `POST /api/graphql` request without an `Authorization` header. -/
def anonymousRequest : Request :=
  { Method := "POST", URL := { Path := "/api/graphql" }, Body := "\x7bquery\x7d" }

/-- A `POST /api/graphql` request with the given `Authorization` header. -/
def graphqlRequest (authorization : String) : Request :=
  { Method := "POST", URL := { Path := "/api/graphql" },
    Header := [("Authorization", [authorization])], Body := "\x7bquery\x7d" }

/-! ## Header lemmas -/

theorem canonical_allow_origin :
    CanonicalMIMEHeaderKey "Access-Control-Allow-Origin" = "Access-Control-Allow-Origin" := by
  decide

theorem canonical_allow_methods :
    CanonicalMIMEHeaderKey "Access-Control-Allow-Methods" = "Access-Control-Allow-Methods" := by
  decide

theorem canonical_allow_headers :
    CanonicalMIMEHeaderKey "Access-Control-Allow-Headers" = "Access-Control-Allow-Headers" := by
  decide

theorem canonical_content_type : CanonicalMIMEHeaderKey "Content-Type" = "Content-Type" := by
  decide

theorem canonical_content_length :
    CanonicalMIMEHeaderKey "Content-Length" = "Content-Length" := by
  decide

theorem canonical_nosniff :
    CanonicalMIMEHeaderKey "X-Content-Type-Options" = "X-Content-Type-Options" := by
  decide

theorem lookup_filter_ne (h : Header) (a b : String) (hab : a ≠ b) :
    (h.filter (fun e => e.1 != b)).lookup a = h.lookup a := by
  induction h with
  | nil => rfl
  | cons e t ih =>
    obtain ⟨k, v⟩ := e
    by_cases hk : k = b
    · subst hk
      have h1 : (a == k) = false := by simpa using hab
      simp [List.filter_cons, List.lookup_cons, h1, ih]
    · by_cases ha : a = k
      · subst ha
        simp [List.filter_cons, List.lookup_cons, hk]
      · have h1 : (a == k) = false := by simpa using ha
        simp [List.filter_cons, List.lookup_cons, hk, h1, ih]

theorem lookup_filter_self (h : Header) (a : String) :
    (h.filter (fun e => e.1 != a)).lookup a = none := by
  induction h with
  | nil => rfl
  | cons e t ih =>
    obtain ⟨k, v⟩ := e
    by_cases hk : k = a
    · subst hk
      simp [List.filter_cons, ih]
    · have h1 : (a == k) = false := by simpa using (Ne.symm hk)
      simp [List.filter_cons, List.lookup_cons, hk, h1, ih]

theorem Header.Values_Del (h : Header) (k k2 : String) :
    (h.Del k).Values k2 =
      if CanonicalMIMEHeaderKey k2 = CanonicalMIMEHeaderKey k then [] else h.Values k2 := by
  unfold Header.Del Header.Values
  split
  · next heq => rw [heq, lookup_filter_self]; rfl
  · next hne => rw [lookup_filter_ne _ _ _ hne]

theorem Header.Values_Set (h : Header) (k v k2 : String) :
    (h.Set k v).Values k2 =
      if CanonicalMIMEHeaderKey k2 = CanonicalMIMEHeaderKey k then [v] else h.Values k2 := by
  unfold Header.Set
  split
  · next heq => simp [Header.Values, List.lookup_cons, heq]
  · next hne =>
    have h1 : (CanonicalMIMEHeaderKey k2 == CanonicalMIMEHeaderKey k) = false := by
      simpa using hne
    have h2 := Header.Values_Del h k k2
    rw [if_neg hne] at h2
    simp only [Header.Values, List.lookup_cons, h1] at h2 ⊢
    exact h2

/-- The header map after `corsMiddleware` set its three headers carries them. -/
theorem HasCors_withCors (x : Exchange) : HasCors (withCors x).w.header := by
  simp [HasCors, withCors, Exchange.HeaderSet, Header.Values_Set, canonical_allow_origin,
    canonical_allow_methods, canonical_allow_headers]

theorem corsMiddleware_eq (next : HandlerFunc) (x : Exchange) :
    corsMiddleware next x =
      if x.r.Method = "OPTIONS" then (withCors x).WriteHeader StatusOK else next (withCors x) := rfl

theorem withCors_start (r : Request) :
    withCors (Exchange.start r) = { w := { header := corsHeaderMap }, r := r } := by
  simp [corsHeaderMap, withCors, Exchange.start, Exchange.HeaderSet, Header.Set, Header.Del,
    canonical_allow_origin, canonical_allow_methods, canonical_allow_headers]

theorem HasCors_corsHeaderMap : HasCors corsHeaderMap := by decide

theorem corsMiddleware_options (next : HandlerFunc) (x : Exchange)
    (hm : x.r.Method = "OPTIONS") :
    corsMiddleware next x = (withCors x).WriteHeader StatusOK := by
  rw [corsMiddleware_eq, if_pos hm]

theorem corsMiddleware_other (next : HandlerFunc) (x : Exchange)
    (hm : x.r.Method ≠ "OPTIONS") :
    corsMiddleware next x = next (withCors x) := by
  rw [corsMiddleware_eq, if_neg hm]

theorem corsMiddleware_options_start (next : HandlerFunc) (r : Request)
    (hm : r.Method = "OPTIONS") :
    corsMiddleware next (Exchange.start r) =
      { w := { header := corsHeaderMap, wroteHeader := true, status := 200,
               sentHeader := corsHeaderMap, body := "" },
        r := r, proxied := [], outbound := [] } := by
  have hm2 : (Exchange.start r).r.Method = "OPTIONS" := hm
  rw [corsMiddleware_options next _ hm2, withCors_start]
  rfl

theorem serve_cors_options (next : HandlerFunc) (r : Request) (hm : r.Method = "OPTIONS") :
    serve (corsMiddleware next) r = { status := 200, header := corsHeaderMap, body := "" } := by
  unfold serve
  rw [corsMiddleware_options_start next r hm]
  rfl

theorem serve_cors_other (next : HandlerFunc) (r : Request) (hm : r.Method ≠ "OPTIONS") :
    serve (corsMiddleware next) r = (next (withCors (Exchange.start r))).w.finish := by
  have hm2 : (Exchange.start r).r.Method ≠ "OPTIONS" := hm
  unfold serve
  rw [corsMiddleware_other next _ hm2]

/-! ## The CORS wrapper (claims C3, C4, C5) -/

/-- C3, counterexample: wrapped by `corsMiddleware`, a handler that deletes the
`Access-Control-Allow-Origin` header answers a `POST` request with a response
that does not carry the three CORS headers. -/
theorem cors_headers_not_for_every_handler :
    ¬ HasCors (serve (corsMiddleware dropOriginHandler) signinRequest).header := by
  decide

/-- C3, amended: `corsMiddleware H` sets the three CORS headers on the header
map before it tests the method and before `H` runs; its response carries the
three headers when the method is `OPTIONS` and, for any other method, whenever
`H` keeps them. -/
theorem cors_headers_when_kept (H : HandlerFunc) (r : Request)
    (hH : r.Method = "OPTIONS" ∨ KeepsCors H) :
    HasCors (withCors (Exchange.start r)).w.header ∧
    corsMiddleware H (Exchange.start r) =
      (if r.Method = "OPTIONS" then (withCors (Exchange.start r)).WriteHeader StatusOK
       else H (withCors (Exchange.start r))) ∧
    HasCors (serve (corsMiddleware H) r).header := by
  refine ⟨HasCors_withCors _, rfl, ?_⟩
  by_cases hm : r.Method = "OPTIONS"
  · rw [serve_cors_options H r hm]
    exact HasCors_corsHeaderMap
  · rw [serve_cors_other H r hm]
    rcases hH with h | h
    · exact absurd h hm
    · exact h _ rfl (HasCors_withCors _)

/-- C3, witness: `authHandler` keeps the CORS headers, so its wrapped response
to a `POST` request carries them. -/
theorem cors_headers_when_kept_witness :
    HasCors (serve (corsMiddleware authHandler) signinRequest).header :=
  (cors_headers_when_kept authHandler signinRequest
    (Or.inr (fun _ hw hc => by
      simpa [authHandler, ResponseWriter.finish, ResponseWriter.WriteHeader, hw, StatusOK]
        using hc))).2.2

/-- C4: for a request whose method is `OPTIONS`, `corsMiddleware H` writes
status 200 on top of the three CORS headers and returns: whatever `H` is, a
fresh exchange ends with status 200, an empty body, the three headers, the
request untouched and no proxy call, and from any state the result is the same
for every two handlers. -/
theorem cors_preflight (H : HandlerFunc) (r : Request) (hm : r.Method = "OPTIONS") :
    corsMiddleware H (Exchange.start r) =
      { w := { header := corsHeaderMap, wroteHeader := true, status := 200,
               sentHeader := corsHeaderMap, body := "" },
        r := r, proxied := [], outbound := [] } ∧
    serve (corsMiddleware H) r = { status := 200, header := corsHeaderMap, body := "" } ∧
    HasCors (serve (corsMiddleware H) r).header ∧
    (∀ (H2 : HandlerFunc) (x : Exchange), x.r = r →
      corsMiddleware H x = corsMiddleware H2 x ∧
      corsMiddleware H x = (withCors x).WriteHeader StatusOK) := by
  refine ⟨corsMiddleware_options_start H r hm, serve_cors_options H r hm, ?_, ?_⟩
  · rw [serve_cors_options H r hm]
    exact HasCors_corsHeaderMap
  · intro H2 x hx
    have hx2 : x.r.Method = "OPTIONS" := by rw [hx]; exact hm
    rw [corsMiddleware_options H x hx2, corsMiddleware_options H2 x hx2]
    exact ⟨rfl, rfl⟩

/-- C4, witness: an `OPTIONS` request to `/api/graphql` without an
`Authorization` header gets status 200, an empty body and the three headers
from the wrapped `graphqlProxyHandler`, not 401. -/
theorem cors_preflight_witness :
    serve (corsMiddleware (graphqlProxyHandler Lib.sample)) preflightRequest =
      { status := 200, header := corsHeaderMap, body := "" } :=
  (cors_preflight (graphqlProxyHandler Lib.sample) preflightRequest rfl).2.1

/-- C5: for a request whose method is not `OPTIONS`, `corsMiddleware H` is one
run of `H` on the state in which the three CORS headers are set: that state
has the request unmodified, no status written, the body and the proxy logs as
they were; on a fresh exchange it holds the three headers and nothing else,
and the response is the one `H` produces from it. -/
theorem cors_delegates (H : HandlerFunc) (x : Exchange) (hm : x.r.Method ≠ "OPTIONS") :
    corsMiddleware H x = H (withCors x) ∧
    (withCors x).r = x.r ∧
    (withCors x).w.wroteHeader = x.w.wroteHeader ∧
    (withCors x).w.status = x.w.status ∧
    (withCors x).w.sentHeader = x.w.sentHeader ∧
    (withCors x).w.body = x.w.body ∧
    (withCors x).proxied = x.proxied ∧
    (withCors x).outbound = x.outbound ∧
    (x = Exchange.start x.r →
      withCors x = { w := { header := corsHeaderMap }, r := x.r } ∧
      serve (corsMiddleware H) x.r =
        (H { w := { header := corsHeaderMap }, r := x.r }).w.finish) := by
  have e1 : corsMiddleware H x = H (withCors x) := corsMiddleware_other H x hm
  refine ⟨e1, rfl, rfl, rfl, rfl, rfl, rfl, rfl, ?_⟩
  intro hx
  have e2 : withCors x = { w := { header := corsHeaderMap }, r := x.r } := by
    rw [hx]; exact withCors_start _
  refine ⟨e2, ?_⟩
  unfold serve
  rw [← hx, e1, e2]

/-- C5, witness: on a `POST` request the wrapped `authHandler` is `authHandler`
run on the state with the three headers set. -/
theorem cors_delegates_witness :
    corsMiddleware authHandler (Exchange.start signinRequest) =
      authHandler (withCors (Exchange.start signinRequest)) :=
  (cors_delegates authHandler (Exchange.start signinRequest) (by decide)).1

/-! ## The reverse proxy handler (claims C1, C2, C10) -/

theorem graphqlEndpoint_eq :
    graphqlEndpoint =
      { Scheme := "https", Host := "DOMAIN", Path := "/api/graphql-engine/v1/graphql" } := by
  decide

/-- The request `graphqlProxyHandler` hands to the reverse proxy. -/
theorem graphqlProxyHandler_forward (L : Lib) (x : Exchange)
    (hauth : HasPrefix (x.r.Header.Get "Authorization") "Bearer " = true) :
    graphqlProxyHandler L x =
      (NewSingleHostReverseProxy L graphqlEndpoint).ServeHTTP L
        { x with r := { x.r with URL := { x.r.URL with Host := "DOMAIN", Scheme := "https" },
                                 Host := "DOMAIN" } } := by
  simp [graphqlProxyHandler, hauth, graphqlEndpoint_eq]

theorem graphqlProxyHandler_reject (L : Lib) (x : Exchange)
    (hauth : HasPrefix (x.r.Header.Get "Authorization") "Bearer " = false) :
    graphqlProxyHandler L x = Error x "Unauthorized" StatusUnauthorized := by
  simp [graphqlProxyHandler, hauth]

theorem Error_frame (x : Exchange) (error : String) (code : Nat) :
    (Error x error code).r = x.r ∧ (Error x error code).proxied = x.proxied ∧
    (Error x error code).outbound = x.outbound := by
  unfold Error Exchange.Write
  simp only []
  split_ifs <;> simp [Exchange.WriteHeader, Exchange.HeaderSet, Exchange.HeaderDel]

theorem Error_unauthorized_w (x : Exchange) (hw : x.w.wroteHeader = false) :
    (Error x "Unauthorized" StatusUnauthorized).w.wroteHeader = true ∧
    (Error x "Unauthorized" StatusUnauthorized).w.status = 401 ∧
    (Error x "Unauthorized" StatusUnauthorized).w.sentHeader =
      ((x.w.header.Del "Content-Length").Set "Content-Type" "text/plain; charset=utf-8").Set
        "X-Content-Type-Options" "nosniff" := by
  unfold Error Exchange.Write
  simp only []
  split_ifs <;>
    simp_all [Exchange.WriteHeader, Exchange.HeaderSet, Exchange.HeaderDel,
      ResponseWriter.WriteHeader, StatusUnauthorized]

theorem graphqlProxyHandler_reject_status (L : Lib) (x : Exchange)
    (hw : x.w.wroteHeader = false)
    (hauth : HasPrefix (x.r.Header.Get "Authorization") "Bearer " = false) :
    (graphqlProxyHandler L x).w.finish.status = 401 := by
  rw [graphqlProxyHandler_reject L x hauth]
  obtain ⟨h1, h2, -⟩ := Error_unauthorized_w x hw
  simp [ResponseWriter.finish, h1, h2]

theorem HasPrefix_append (p t : String) : HasPrefix (p ++ t) p = true := by
  simp [HasPrefix]

/-- C1: when the `Authorization` header of the request is absent (`Get` gives
the empty string) or does not start with `Bearer `, `graphqlProxyHandler`,
called on a response to which no status was written yet, answers with status
401, hands nothing to the reverse proxy, sends nothing upstream and leaves the
request as it was. -/
theorem graphqlProxyHandler_unauthorized (L : Lib) (x : Exchange)
    (hw : x.w.wroteHeader = false)
    (hauth : HasPrefix (x.r.Header.Get "Authorization") "Bearer " = false) :
    (graphqlProxyHandler L x).w.finish.status = 401 ∧
    (graphqlProxyHandler L x).proxied = x.proxied ∧
    (graphqlProxyHandler L x).outbound = x.outbound ∧
    (graphqlProxyHandler L x).r = x.r := by
  refine ⟨graphqlProxyHandler_reject_status L x hw hauth, ?_⟩
  rw [graphqlProxyHandler_reject L x hauth]
  obtain ⟨h4, h5, h6⟩ := Error_frame x "Unauthorized" StatusUnauthorized
  exact ⟨h5, h6, h4⟩

/-- C1, witness: a request without the header, and requests with the values
`bearer x`, `Bearer` and `Basic abc`, are answered with 401. -/
theorem graphqlProxyHandler_unauthorized_witness :
    ((graphqlProxyHandler Lib.sample (Exchange.start anonymousRequest)).w.finish.status = 401 ∧
      (graphqlProxyHandler Lib.sample (Exchange.start anonymousRequest)).proxied = []) ∧
    (graphqlProxyHandler Lib.sample
      (Exchange.start (graphqlRequest "bearer x"))).w.finish.status = 401 ∧
    (graphqlProxyHandler Lib.sample
      (Exchange.start (graphqlRequest "Bearer"))).w.finish.status = 401 ∧
    (graphqlProxyHandler Lib.sample
      (Exchange.start (graphqlRequest "Basic abc"))).w.finish.status = 401 :=
  ⟨⟨(graphqlProxyHandler_unauthorized Lib.sample (Exchange.start anonymousRequest) rfl
        (by decide)).1,
    (graphqlProxyHandler_unauthorized Lib.sample (Exchange.start anonymousRequest) rfl
        (by decide)).2.1⟩,
   (graphqlProxyHandler_unauthorized Lib.sample (Exchange.start (graphqlRequest "bearer x")) rfl
      (by decide)).1,
   (graphqlProxyHandler_unauthorized Lib.sample (Exchange.start (graphqlRequest "Bearer")) rfl
      (by decide)).1,
   (graphqlProxyHandler_unauthorized Lib.sample (Exchange.start (graphqlRequest "Basic abc")) rfl
      (by decide)).1⟩

/-- C2: when the `Authorization` header is `Bearer ` followed by a non-empty
token, `graphqlProxyHandler` writes nothing itself: the request becomes the
inbound one with `URL.Host`, `URL.Scheme` and `Host` set to `DOMAIN`, `https`
and `DOMAIN` (method, path, query, headers and body as they were), that request
is handed to the reverse proxy once, and the response writer is the one the
reverse proxy leaves. -/
theorem graphqlProxyHandler_bearer (L : Lib) (x : Exchange) (token : String)
    (htok : token ≠ "")
    (hauth : x.r.Header.Get "Authorization" = "Bearer " ++ token) :
    (graphqlProxyHandler L x).r =
      { x.r with URL := { x.r.URL with Host := "DOMAIN", Scheme := "https" },
                 Host := "DOMAIN" } ∧
    (graphqlProxyHandler L x).proxied = x.proxied ++ [(graphqlProxyHandler L x).r] ∧
    (graphqlProxyHandler L x).outbound =
      x.outbound ++ [rewriteRequestURL L (graphqlProxyHandler L x).r graphqlEndpoint] ∧
    (graphqlProxyHandler L x).w =
      L.roundTrip (rewriteRequestURL L (graphqlProxyHandler L x).r graphqlEndpoint) x.w ∧
    (graphqlProxyHandler L x).r.Method = x.r.Method ∧
    (graphqlProxyHandler L x).r.URL.Path = x.r.URL.Path ∧
    (graphqlProxyHandler L x).r.URL.RawPath = x.r.URL.RawPath ∧
    (graphqlProxyHandler L x).r.URL.RawQuery = x.r.URL.RawQuery ∧
    (graphqlProxyHandler L x).r.Header = x.r.Header ∧
    (graphqlProxyHandler L x).r.Header.Get "Authorization" = "Bearer " ++ token ∧
    (graphqlProxyHandler L x).r.Body = x.r.Body ∧
    graphqlEndpoint.Host = "DOMAIN" ∧ graphqlEndpoint.Scheme = "https" := by
  have hp : HasPrefix (x.r.Header.Get "Authorization") "Bearer " = true := by
    rw [hauth]; exact HasPrefix_append _ _
  have _ := htok
  rw [graphqlProxyHandler_forward L x hp]
  refine ⟨rfl, rfl, rfl, rfl, rfl, rfl, rfl, rfl, rfl, hauth, rfl, ?_, ?_⟩ <;>
    simp [graphqlEndpoint_eq]

/-- C2, witness: the request with the value `Bearer abc` is handed to the
reverse proxy once, with host and scheme of the upstream. -/
theorem graphqlProxyHandler_bearer_witness :
    (graphqlProxyHandler Lib.sample (Exchange.start (graphqlRequest "Bearer abc"))).proxied =
      [{ graphqlRequest "Bearer abc" with
          URL := { Scheme := "https", Host := "DOMAIN", Path := "/api/graphql" },
          Host := "DOMAIN" }] := by
  have h := graphqlProxyHandler_bearer Lib.sample (Exchange.start (graphqlRequest "Bearer abc"))
    "abc" (by decide) (by decide)
  rw [h.2.1, h.1]
  rfl

/-- C10: `graphqlProxyHandler` takes its 401 branch exactly when the
`Authorization` value does not have `Bearer ` as a prefix, and hands the request
to the reverse proxy exactly when it has; what follows the prefix is not
looked at, so the value `Bearer ` with an empty token is forwarded. -/
theorem bearer_check_prefix_only (L : Lib) (x : Exchange) :
    (graphqlProxyHandler L x = Error x "Unauthorized" StatusUnauthorized ↔
      HasPrefix (x.r.Header.Get "Authorization") "Bearer " = false) ∧
    ((graphqlProxyHandler L x).proxied = x.proxied ++ [(graphqlProxyHandler L x).r] ↔
      HasPrefix (x.r.Header.Get "Authorization") "Bearer " = true) ∧
    (x.r.Header.Get "Authorization" = "Bearer " →
      graphqlProxyHandler L x ≠ Error x "Unauthorized" StatusUnauthorized ∧
      (graphqlProxyHandler L x).proxied = x.proxied ++ [(graphqlProxyHandler L x).r] ∧
      (graphqlProxyHandler L x).w =
        L.roundTrip (rewriteRequestURL L (graphqlProxyHandler L x).r graphqlEndpoint) x.w) := by
  have hrej : HasPrefix (x.r.Header.Get "Authorization") "Bearer " = false →
      (graphqlProxyHandler L x).proxied = x.proxied := by
    intro h
    rw [graphqlProxyHandler_reject L x h]
    exact (Error_frame x _ _).2.1
  have hfwd : HasPrefix (x.r.Header.Get "Authorization") "Bearer " = true →
      (graphqlProxyHandler L x).proxied = x.proxied ++ [(graphqlProxyHandler L x).r] := by
    intro h
    rw [graphqlProxyHandler_forward L x h]
    rfl
  have hne : ∀ r : Request, x.proxied ≠ x.proxied ++ [r] := by
    intro r h
    have := congrArg List.length h
    simp at this
  have hiff : graphqlProxyHandler L x = Error x "Unauthorized" StatusUnauthorized ↔
      HasPrefix (x.r.Header.Get "Authorization") "Bearer " = false := by
    constructor
    · intro h
      by_contra hp
      have hp2 : HasPrefix (x.r.Header.Get "Authorization") "Bearer " = true := by
        simpa using hp
      have h1 := hfwd hp2
      rw [h, (Error_frame x _ _).2.1] at h1
      exact hne _ h1
    · exact graphqlProxyHandler_reject L x
  refine ⟨hiff, ⟨?_, hfwd⟩, ?_⟩
  · intro h
    by_contra hp
    have hp2 : HasPrefix (x.r.Header.Get "Authorization") "Bearer " = false := by
      simpa using hp
    rw [hrej hp2] at h
    exact hne _ h
  · intro h
    have hp : HasPrefix (x.r.Header.Get "Authorization") "Bearer " = true := by
      rw [h]; decide
    refine ⟨?_, hfwd hp, ?_⟩
    · intro hE
      rw [hiff.1 hE] at hp
      exact Bool.noConfusion hp
    · rw [graphqlProxyHandler_forward L x hp]
      rfl

/-- C10, witness: the request with the value `Bearer ` is handed to the reverse
proxy, and the response is the one of the proxy (502 from the sample library,
whose upstream cannot be reached). -/
theorem bearer_check_prefix_only_witness :
    (graphqlProxyHandler Lib.sample (Exchange.start (graphqlRequest "Bearer "))).proxied =
      [{ graphqlRequest "Bearer " with
          URL := { Scheme := "https", Host := "DOMAIN", Path := "/api/graphql" },
          Host := "DOMAIN" }] ∧
    (graphqlProxyHandler Lib.sample (Exchange.start (graphqlRequest "Bearer "))).w.finish.status
      = 502 := by
  have h := (bearer_check_prefix_only Lib.sample (Exchange.start (graphqlRequest "Bearer "))).2.2
    (by decide)
  refine ⟨?_, ?_⟩
  · rw [h.2.1]; rfl
  · rw [h.2.2]; rfl

/-! ## CORS headers on the registered routes (claim C6) -/

theorem HasCors_after_Error (h : Header) (hc : HasCors h) :
    HasCors (((h.Del "Content-Length").Set "Content-Type" "text/plain; charset=utf-8").Set
      "X-Content-Type-Options" "nosniff") := by
  obtain ⟨h1, h2, h3⟩ := hc
  simp [HasCors, Header.Values_Set, Header.Values_Del, canonical_allow_origin,
    canonical_allow_methods, canonical_allow_headers, canonical_content_type,
    canonical_content_length, canonical_nosniff, h1, h2, h3]

theorem KeepsCors_authHandler : KeepsCors authHandler := by
  intro x hw hc
  simpa [authHandler, ResponseWriter.finish, ResponseWriter.WriteHeader, hw, StatusOK] using hc

theorem graphqlProxyHandler_reject_keeps (L : Lib) (x : Exchange)
    (hw : x.w.wroteHeader = false)
    (hauth : HasPrefix (x.r.Header.Get "Authorization") "Bearer " = false)
    (hc : HasCors x.w.header) :
    HasCors (graphqlProxyHandler L x).w.finish.header := by
  rw [graphqlProxyHandler_reject L x hauth]
  obtain ⟨h1, -, h3⟩ := Error_unauthorized_w x hw
  simp only [ResponseWriter.finish, h1, if_true, h3]
  exact HasCors_after_Error _ hc

/-- The dispatch table `Start` builds for the server of `InitServer`, when the
multiplexer accepts the three patterns. -/
theorem InitServer_table (L : Lib)
    (hvalid : ∀ p ∈ ["/api/graphql", "/api/auth/signin", "/static/"], L.validPattern p = true)
    (hconf : ["/api/graphql", "/api/auth/signin", "/static/"].Pairwise
      (fun p q => L.conflicts p q = false)) :
    (InitServer L).2 =
      .ok [{ pattern := "/api/graphql", h := corsMiddleware (graphqlProxyHandler L) },
           { pattern := "/api/auth/signin", h := corsMiddleware authHandler },
           { pattern := "/static/", h := StripPrefix "/static/" (L.FileServer "static") }] := by
  have hv1 : L.validPattern "/api/graphql" = true := hvalid _ (by simp)
  have hv2 : L.validPattern "/api/auth/signin" = true := hvalid _ (by simp)
  have hv3 : L.validPattern "/static/" = true := hvalid _ (by simp)
  simp only [List.pairwise_cons, List.mem_cons, List.mem_singleton, forall_eq_or_imp,
    forall_eq] at hconf
  obtain ⟨⟨hc12, hc13⟩, ⟨hc23, -⟩, -⟩ := hconf
  simp [InitServer, Server.Start, Server.Handle, NewServer, NewServeMux, ServeMux.HandleFunc,
    ServeMux.Handle, hv1, hv2, hv3, hc12, hc13, hc23, bind, Except.bind, pure, Except.pure]

/-- The response of the wrapped `graphqlProxyHandler` on its forwarding path:
what the round trip of the reverse proxy makes of a response writer that
holds the three CORS headers and nothing else. -/
theorem serve_cors_graphql_forward (L : Lib) (r : Request) (hm : r.Method ≠ "OPTIONS")
    (hauth : HasPrefix (r.Header.Get "Authorization") "Bearer " = true) :
    serve (corsMiddleware (graphqlProxyHandler L)) r =
      (L.roundTrip
        (rewriteRequestURL L
          { r with URL := { r.URL with Host := "DOMAIN", Scheme := "https" }, Host := "DOMAIN" }
          graphqlEndpoint)
        { header := corsHeaderMap }).finish := by
  have hauth2 : HasPrefix ((withCors (Exchange.start r)).r.Header.Get "Authorization")
      "Bearer " = true := hauth
  rw [serve_cors_other _ r hm, graphqlProxyHandler_forward L _ hauth2, withCors_start]
  rfl

/-- C6, counterexample: the table `Start` builds for the server of `InitServer`
has an entry for `/api/graphql` whose response to a request with the value
`Bearer abc` does not carry the three CORS headers with their literal values,
when the upstream answers with an `Access-Control-Allow-Origin` header of its
own: the reverse proxy adds it to the one `corsMiddleware` set, and the
response holds the two values `*` and `https://up`. -/
theorem forwarded_response_changes_cors :
    ∃ mux, (InitServer Lib.upstreamOrigin).2 = .ok mux ∧
      ∃ e ∈ mux, e.pattern = "/api/graphql" ∧
        ¬ HasCors (serve e.h (graphqlRequest "Bearer abc")).header ∧
        (serve e.h (graphqlRequest "Bearer abc")).header.Values "Access-Control-Allow-Origin" =
          ["*", "https://up"] := by
  refine ⟨_, InitServer_table Lib.upstreamOrigin (by decide) (by decide),
    { pattern := "/api/graphql", h := corsMiddleware (graphqlProxyHandler Lib.upstreamOrigin) },
    by simp, rfl, ?_, ?_⟩ <;> decide

/-- C6, amended: when the multiplexer accepts the three patterns, the table
`Start` builds for the server of `InitServer` holds the entries `/api/graphql`,
`/api/auth/signin` and `/static/`, in this order, and every response the
gateway writes itself carries the three CORS headers with their literal
values: the entry of `/api/graphql` answers `OPTIONS` with status 200 and an
empty body, and any other request without a bearer header with status 401; the
entry of `/api/auth/signin` answers every request with status 200 and an empty
body.  Neither the 401 path of `graphqlProxyHandler` nor `authHandler` removes
or changes a CORS header that is set.  On the forwarding path the response of
the `/api/graphql` entry is what the round trip of the reverse proxy makes of
the three headers. -/
theorem registered_routes_cors (L : Lib) (r : Request)
    (hvalid : ∀ p ∈ ["/api/graphql", "/api/auth/signin", "/static/"], L.validPattern p = true)
    (hconf : ["/api/graphql", "/api/auth/signin", "/static/"].Pairwise
      (fun p q => L.conflicts p q = false)) :
    (InitServer L).1.routes =
      [{ Path := "/api/graphql", Handler := graphqlProxyHandler L },
       { Path := "/api/auth/signin", Handler := authHandler }] ∧
    (∃ mux, (InitServer L).2 = .ok mux ∧
      mux.map muxEntry.pattern = ["/api/graphql", "/api/auth/signin", "/static/"] ∧
      ∀ e ∈ mux,
        (e.pattern = "/api/graphql" →
          (r.Method = "OPTIONS" →
            serve e.h r = { status := 200, header := corsHeaderMap, body := "" }) ∧
          (r.Method ≠ "OPTIONS" → HasPrefix (r.Header.Get "Authorization") "Bearer " = false →
            HasCors (serve e.h r).header ∧ (serve e.h r).status = 401) ∧
          (r.Method ≠ "OPTIONS" → HasPrefix (r.Header.Get "Authorization") "Bearer " = true →
            serve e.h r =
              (L.roundTrip
                (rewriteRequestURL L
                  { r with URL := { r.URL with Host := "DOMAIN", Scheme := "https" },
                           Host := "DOMAIN" }
                  graphqlEndpoint)
                { header := corsHeaderMap }).finish)) ∧
        (e.pattern = "/api/auth/signin" →
          HasCors (serve e.h r).header ∧ (serve e.h r).status = 200 ∧
          (serve e.h r).body = "")) ∧
    HasCors corsHeaderMap ∧
    KeepsCors authHandler ∧
    (∀ x : Exchange, x.w.wroteHeader = false →
      HasPrefix (x.r.Header.Get "Authorization") "Bearer " = false →
      HasCors x.w.header → HasCors (graphqlProxyHandler L x).w.finish.header) := by
  refine ⟨rfl, ⟨_, InitServer_table L hvalid hconf, rfl, ?_⟩, HasCors_corsHeaderMap,
    KeepsCors_authHandler, graphqlProxyHandler_reject_keeps L⟩
  intro e he
  simp only [List.mem_cons, List.mem_singleton, List.not_mem_nil, or_false] at he
  rcases he with rfl | rfl | rfl
  · refine ⟨fun _ => ⟨?_, ?_, ?_⟩,
      fun h => absurd h (by decide : ("/api/graphql" : String) ≠ "/api/auth/signin")⟩
    · intro hm
      exact serve_cors_options _ r hm
    · intro hm hauth
      have hauth2 : HasPrefix ((withCors (Exchange.start r)).r.Header.Get "Authorization")
          "Bearer " = false := hauth
      change HasCors (serve (corsMiddleware (graphqlProxyHandler L)) r).header ∧
        (serve (corsMiddleware (graphqlProxyHandler L)) r).status = 401
      rw [serve_cors_other _ r hm]
      exact ⟨graphqlProxyHandler_reject_keeps L _ rfl hauth2 (HasCors_withCors _),
        graphqlProxyHandler_reject_status L _ rfl hauth2⟩
    · intro hm hauth
      exact serve_cors_graphql_forward L r hm hauth
  · refine ⟨fun h => absurd h (by decide : ("/api/auth/signin" : String) ≠ "/api/graphql"),
      fun _ => ?_⟩
    change HasCors (serve (corsMiddleware authHandler) r).header ∧
      (serve (corsMiddleware authHandler) r).status = 200 ∧
      (serve (corsMiddleware authHandler) r).body = ""
    by_cases hm : r.Method = "OPTIONS"
    · rw [serve_cors_options _ r hm]
      exact ⟨HasCors_corsHeaderMap, rfl, rfl⟩
    · rw [serve_cors_other _ r hm]
      refine ⟨KeepsCors_authHandler _ rfl (HasCors_withCors _), ?_, ?_⟩ <;>
        simp [authHandler, withCors_start, ResponseWriter.finish, ResponseWriter.WriteHeader,
          StatusOK]
  · exact ⟨fun h => absurd h (by decide : ("/static/" : String) ≠ "/api/graphql"),
      fun h => absurd h (by decide : ("/static/" : String) ≠ "/api/auth/signin")⟩

/-- C6, witness: in the table `Start` builds for the server of `InitServer`, the
`/api/graphql` entry answers a request without the header with 401 and the
three CORS headers, and the `/api/auth/signin` entry answers with 200 and the
three headers. -/
theorem registered_routes_cors_witness :
    ∃ mux, (InitServer Lib.sample).2 = .ok mux ∧
      ∀ e ∈ mux,
        (e.pattern = "/api/graphql" →
          HasCors (serve e.h anonymousRequest).header ∧
          (serve e.h anonymousRequest).status = 401) ∧
        (e.pattern = "/api/auth/signin" →
          HasCors (serve e.h anonymousRequest).header ∧
          (serve e.h anonymousRequest).status = 200) := by
  obtain ⟨-, ⟨mux, hmux, -, h⟩, -⟩ :=
    registered_routes_cors Lib.sample anonymousRequest (by decide) (by decide)
  refine ⟨mux, hmux, fun e he => ⟨fun hp => ?_, fun hp => ?_⟩⟩
  · exact ((h e he).1 hp).2.1 (by decide) (by decide)
  · exact ⟨((h e he).2 hp).1, ((h e he).2 hp).2.1⟩

/-! ## The outbound URL (claim C7) -/

/-- C7: for a request with a bearer header whose path is `/api/graphql` (the
only path the route matches), the director of the single-host reverse proxy
joins the path of the endpoint and the path of the request: the outbound URL is
`https://DOMAIN/api/graphql-engine/v1/graphql/api/graphql` followed by the
query of the request, not the endpoint `https://DOMAIN/api/graphql-engine/v1/graphql`. -/
theorem graphql_outbound_url (L : Lib) (x : Exchange)
    (hauth : HasPrefix (x.r.Header.Get "Authorization") "Bearer " = true)
    (hpath : x.r.URL.Path = "/api/graphql") (hraw : x.r.URL.RawPath = "") :
    (graphqlProxyHandler L x).outbound =
      x.outbound ++ [rewriteRequestURL L (graphqlProxyHandler L x).r graphqlEndpoint] ∧
    (rewriteRequestURL L (graphqlProxyHandler L x).r graphqlEndpoint).URL =
      { x.r.URL with Scheme := "https", Host := "DOMAIN",
                     Path := "/api/graphql-engine/v1/graphql/api/graphql" } ∧
    (rewriteRequestURL L (graphqlProxyHandler L x).r graphqlEndpoint).URL ≠ graphqlEndpoint := by
  have e2 : (rewriteRequestURL L (graphqlProxyHandler L x).r graphqlEndpoint).URL =
      { x.r.URL with Scheme := "https", Host := "DOMAIN",
                     Path := "/api/graphql-engine/v1/graphql/api/graphql" } := by
    rw [graphqlProxyHandler_forward L x hauth]
    have hj : singleJoiningSlash "/api/graphql-engine/v1/graphql" "/api/graphql" =
        "/api/graphql-engine/v1/graphql/api/graphql" := by decide
    simp [ReverseProxy.ServeHTTP, rewriteRequestURL, joinURLPath, graphqlEndpoint_eq, hpath,
      hraw, hj]
  refine ⟨?_, e2, ?_⟩
  · rw [graphqlProxyHandler_forward L x hauth]
    rfl
  · rw [e2, graphqlEndpoint_eq]
    intro h
    have hp : "/api/graphql-engine/v1/graphql/api/graphql" = "/api/graphql-engine/v1/graphql" :=
      congrArg URL.Path h
    exact absurd hp (by decide)

/-- C7, witness: the outbound URL of the request with the value `Bearer abc`. -/
theorem graphql_outbound_url_witness :
    (graphqlProxyHandler Lib.sample (Exchange.start (graphqlRequest "Bearer abc"))).outbound.map
        Request.URL =
      [{ Scheme := "https", Host := "DOMAIN",
         Path := "/api/graphql-engine/v1/graphql/api/graphql" }] := by
  have h := graphql_outbound_url Lib.sample (Exchange.start (graphqlRequest "Bearer abc"))
    (by decide) rfl rfl
  rw [h.1, List.map_append, List.map_singleton, h.2.1]
  rfl

/-! ## The route registry (claim C8) -/

theorem foldl_Handle_routes (rs : List Route) (s : Server) :
    (rs.foldl (fun s r => s.Handle r.Path r.Handler) s).routes = s.routes ++ rs := by
  induction rs generalizing s with
  | nil => simp
  | cons r rs ih =>
    rw [List.foldl_cons, ih]
    simp [Server.Handle]

/-- C8: `Server.Handle` is total and checks nothing: whatever the server and
the path, the route list afterwards is the list before with the one pair
`(path, handler)` appended, the earlier routes are the same in the same order,
and the port and the four timeouts are unchanged; so registering a list of
routes on a `NewServer` gives exactly that list, in call order. -/
theorem Handle_appends (s : Server) (path : String) (handler : HandlerFunc) :
    (s.Handle path handler).routes = s.routes ++ [{ Path := path, Handler := handler }] ∧
    (s.Handle path handler).routes.length = s.routes.length + 1 ∧
    (s.Handle path handler).routes.take s.routes.length = s.routes ∧
    (s.Handle path handler).port = s.port ∧
    (s.Handle path handler).readTimeout = s.readTimeout ∧
    (s.Handle path handler).writeTimeout = s.writeTimeout ∧
    (s.Handle path handler).idleTimeout = s.idleTimeout ∧
    (s.Handle path handler).readHeaderTimeout = s.readHeaderTimeout ∧
    (∀ (port : String) (a b c d : Duration) (rs : List Route),
      (rs.foldl (fun s r => s.Handle r.Path r.Handler) (NewServer port a b c d)).routes = rs ∧
      (rs.foldl (fun s r => s.Handle r.Path r.Handler) (NewServer port a b c d)).routes.length
        = rs.length) := by
  refine ⟨rfl, by simp [Server.Handle], by simp [Server.Handle], rfl, rfl, rfl, rfl, rfl, ?_⟩
  intro port a b c d rs
  have h := foldl_Handle_routes rs (NewServer port a b c d)
  simp only [NewServer, List.nil_append] at h
  simp only [NewServer]
  rw [h]
  exact ⟨rfl, rfl⟩

/-! ## The dispatch table (claim C9) -/

theorem ServeMux_Handle_ok (L : Lib) (mux : ServeMux) (p : String) (h : HandlerFunc)
    (hp : p ≠ "") (hv : L.validPattern p = true)
    (hc : ∀ e ∈ mux, e.pattern ≠ p ∧ L.conflicts e.pattern p = false) :
    ServeMux.Handle L mux p h = .ok (mux ++ [{ pattern := p, h := h }]) := by
  have hany : mux.any (fun e => e.pattern == p || L.conflicts e.pattern p) = false := by
    rw [List.any_eq_false]
    intro e he
    obtain ⟨h1, h2⟩ := hc e he
    simp [h1, h2]
  simp [ServeMux.Handle, hp, hv, hany]

theorem foldlM_HandleFunc_ok (L : Lib) (routes : List Route) (mux : ServeMux)
    (hne : ∀ r ∈ routes, r.Path ≠ "")
    (hv : ∀ r ∈ routes, L.validPattern r.Path = true)
    (hpair : (mux.map muxEntry.pattern ++ routes.map Route.Path).Pairwise
      (fun p q => p ≠ q ∧ L.conflicts p q = false)) :
    routes.foldlM
        (fun mux route =>
          let handler := corsMiddleware route.Handler
          ServeMux.HandleFunc L mux route.Path handler) mux =
      .ok (mux ++ routes.map
        (fun route => { pattern := route.Path, h := corsMiddleware route.Handler })) := by
  induction routes generalizing mux with
  | nil => simp [pure, Except.pure]
  | cons r rs ih =>
    have h1 : ServeMux.Handle L mux r.Path (corsMiddleware r.Handler) =
        .ok (mux ++ [{ pattern := r.Path, h := corsMiddleware r.Handler }]) := by
      apply ServeMux_Handle_ok L mux r.Path _ (hne r (by simp)) (hv r (by simp))
      intro e he
      rw [List.pairwise_append] at hpair
      exact hpair.2.2 e.pattern (List.mem_map_of_mem _ he) r.Path (by simp)
    rw [List.foldlM_cons]
    simp only [ServeMux.HandleFunc, h1, bind, Except.bind]
    have := ih (mux ++ [{ pattern := r.Path, h := corsMiddleware r.Handler }])
      (fun q hq => hne q (List.mem_cons_of_mem _ hq))
      (fun q hq => hv q (List.mem_cons_of_mem _ hq))
      (by simpa [List.map_append, List.append_assoc] using hpair)
    simp only [ServeMux.HandleFunc] at this
    rw [this]
    simp [List.append_assoc]

theorem TrimPrefix_append (p t : String) : TrimPrefix (p ++ t) p = t := by
  simp [TrimPrefix, HasPrefix]

theorem StripPrefix_static (h : HandlerFunc) (x : Exchange) (p : String)
    (hpath : x.r.URL.Path = "/static/" ++ p) (hraw : x.r.URL.RawPath = "") :
    StripPrefix "/static/" h x =
      { h { x with r := { x.r with URL := { x.r.URL with Path := p, RawPath := "" } } } with
        r := x.r } := by
  have h1 : TrimPrefix x.r.URL.Path "/static/" = p := by rw [hpath]; exact TrimPrefix_append _ _
  have h2 : TrimPrefix x.r.URL.RawPath "/static/" = "" := by rw [hraw]; decide
  have h3 : p.length < x.r.URL.Path.length := by
    rw [hpath, String.length_append]
    have : ("/static/" : String).length = 8 := by decide
    omega
  have h0 : ("/static/" : String) ≠ "" := by decide
  simp only [StripPrefix, if_neg h0, h1, h2]
  rw [if_pos ⟨h3, Or.inl hraw⟩]

/-- Whatever the pattern rules of the library version, `Start` panics for the
server whose only route is `/static/` and for the one whose only route is the
empty path. -/
theorem Start_panics_for_every_library (L : Lib) :
    (∃ e, staticClashServer.Start L = .error e) ∧
    emptyPathServer.Start L = .error (.invalidPattern "") := by
  refine ⟨?_, rfl⟩
  cases hv : L.validPattern "/static/" <;>
    simp [staticClashServer, Server.Start, Server.Handle, NewServer, NewServeMux,
      ServeMux.HandleFunc, ServeMux.Handle, hv, bind, Except.bind, pure, Except.pure]

/-- C9, counterexample: the paths of a server whose only route is `/static/`
are pairwise distinct, and so are those of a server whose only route is the
empty path, yet `Start` builds no dispatch table for either: the multiplexer
panics, on the second registration of `/static/` and on the empty pattern. -/
theorem Start_panics_on_distinct_paths :
    (staticClashServer.routes.map Route.Path).Pairwise (· ≠ ·) ∧
    staticClashServer.Start Lib.sample = .error (.multipleRegistrations "/static/") ∧
    staticClashServer.Start Lib.sample ≠ .ok (dispatchTable Lib.sample staticClashServer) ∧
    (emptyPathServer.routes.map Route.Path).Pairwise (· ≠ ·) ∧
    emptyPathServer.Start Lib.sample = .error (.invalidPattern "") ∧
    emptyPathServer.Start Lib.sample ≠ .ok (dispatchTable Lib.sample emptyPathServer) := by
  have e1 : staticClashServer.Start Lib.sample = .error (.multipleRegistrations "/static/") :=
    rfl
  have e2 : emptyPathServer.Start Lib.sample = .error (.invalidPattern "") := rfl
  refine ⟨?_, e1, ?_, ?_, e2, ?_⟩
  · simp [staticClashServer, Server.Handle, NewServer]
  · rw [e1]; exact fun h => Except.noConfusion h
  · simp [emptyPathServer, Server.Handle, NewServer]
  · rw [e2]; exact fun h => Except.noConfusion h

/-- C9, amended: for every server whose registered paths are non-empty,
pairwise distinct and different from `/static/`, and are patterns the
multiplexer accepts next to each other and next to `/static/`, `Start` builds
the dispatch table that holds, in registration order, the entry
`path -> corsMiddleware(h)` of each registered route `(path, h)` and then the
one entry `/static/ -> StripPrefix("/static/", FileServer(Dir("static")))`, which
is not wrapped and which runs the file server of the `static` directory on the
request path without its `/static/` prefix. -/
theorem Start_dispatch_table (L : Lib) (s : Server)
    (hne : ∀ r ∈ s.routes, r.Path ≠ "")
    (hdist : (s.routes.map Route.Path).Pairwise (· ≠ ·))
    (hstatic : ∀ r ∈ s.routes, r.Path ≠ "/static/")
    (hvalid : ∀ p ∈ s.routes.map Route.Path ++ ["/static/"], L.validPattern p = true)
    (hconf : (s.routes.map Route.Path ++ ["/static/"]).Pairwise
      (fun p q => L.conflicts p q = false)) :
    s.Start L = .ok (dispatchTable L s) ∧
    dispatchTable L s =
      s.routes.map (fun route => { pattern := route.Path, h := corsMiddleware route.Handler }) ++
        [{ pattern := "/static/", h := StripPrefix "/static/" (L.FileServer "static") }] ∧
    (dispatchTable L s).length = s.routes.length + 1 ∧
    (∀ (x : Exchange) (p : String), x.r.URL.Path = "/static/" ++ p → x.r.URL.RawPath = "" →
      StripPrefix "/static/" (L.FileServer "static") x =
        { L.FileServer "static"
            { x with r := { x.r with URL := { x.r.URL with Path := p, RawPath := "" } } } with
          r := x.r }) := by
  refine ⟨?_, rfl, by simp [dispatchTable], fun x p => StripPrefix_static _ x p⟩
  rw [List.pairwise_append] at hconf
  obtain ⟨hconf1, -, hconf2⟩ := hconf
  have hfold := foldlM_HandleFunc_ok L s.routes NewServeMux hne
    (fun r hr => hvalid r.Path (List.mem_append_left _ (List.mem_map_of_mem _ hr)))
    (by simpa [NewServeMux] using hdist.and hconf1)
  have hlast : ServeMux.Handle L
      (NewServeMux ++ s.routes.map
        (fun route => { pattern := route.Path, h := corsMiddleware route.Handler }))
      "/static/" (StripPrefix "/static/" (L.FileServer "static")) = .ok (dispatchTable L s) := by
    apply ServeMux_Handle_ok L _ "/static/" _ (by decide) (hvalid "/static/" (by simp))
    intro e he
    simp only [NewServeMux, List.nil_append, List.mem_map] at he
    obtain ⟨r, hr, rfl⟩ := he
    exact ⟨hstatic r hr, hconf2 r.Path (List.mem_map_of_mem _ hr) "/static/" (by simp)⟩
  unfold Server.Start
  rw [hfold]
  exact hlast

/-- C9, witness: the dispatch table `Start` builds for the server of
`InitServer`. -/
theorem Start_dispatch_table_witness :
    (InitServer Lib.sample).2 =
      .ok [{ pattern := "/api/graphql", h := corsMiddleware (graphqlProxyHandler Lib.sample) },
           { pattern := "/api/auth/signin", h := corsMiddleware authHandler },
           { pattern := "/static/", h := StripPrefix "/static/" (Lib.sample.FileServer "static") }] :=
  (Start_dispatch_table Lib.sample (InitServer Lib.sample).1
    (by decide) (by decide) (by decide) (by decide) (by decide)).1

end GraphqlGateway
